import Mathlib

/-!
Shallow embedding of the `weather_util_rust` sources: the validated latitude
type (src/latitude.rs) and the weather data model with its current-conditions
rendering and forecast reduction (src/weather_data.rs).

Modelling choices:
* floating-point wire values are modelled as rationals; where IEEE special
  values matter (the latitude range check) an explicit `F64` model with NaN
  and the infinities is used;
* `DateTime<Utc>` values are modelled as epoch seconds (`Int`) and
  `NaiveDate` as a day number (`Int`), matching the timestamp adapter's wire
  format of integer epoch seconds;
* chrono's `FixedOffset::east(secs)` accepts `-86400 < secs < 86400` and
  panics outside that range; the panic is modelled as `Option.none`;
* `BTreeMap<NaiveDate, _>` is modelled as an association list sorted
  strictly ascending by key, which is also its iteration order;
* serde-derived deserialization is modelled over a small JSON value type:
  every non-`Option` field is required and type-checked, `Option` fields
  accept a missing or null field as `none`, and no further validation
  happens unless a field type has a custom `Deserialize`.
-/

/-- Modelled from the spec: `Temperature` (its source file is not among the
sources) stores the canonical Kelvin value; the ordering used for high/low
comparison is total over that stored value.  The stored float is modelled as
a rational. -/
abbrev Temperature := ℚ

/-- Modelled from the spec: conversion to Fahrenheit,
`value_kelvin * 9/5 - 459.67`. -/
def Temperature.fahr (t : Temperature) : ℚ := t * 9 / 5 - 45967 / 100

/-- Modelled from the spec: conversion to Celsius, `value_kelvin - 273.15`. -/
def Temperature.celc (t : Temperature) : ℚ := t - 27315 / 100

/-- An IEEE double, as far as the latitude range check observes it: NaN, an
infinity (`inf true` is `+∞`, `inf false` is `-∞`), or a finite value
modelled as a rational. -/
inductive F64 where
  | nan : F64
  | inf : Bool → F64
  | finite : ℚ → F64
deriving DecidableEq

/-- IEEE `<=` on doubles: every comparison with NaN is false; `-∞` is below
every non-NaN value and `+∞` above. -/
def F64.le : F64 → F64 → Bool
  | .nan, _ => false
  | _, .nan => false
  | .inf false, _ => true
  | _, .inf true => true
  | .inf true, _ => false
  | .finite _, .inf false => false
  | .finite q, .finite r => decide (q ≤ r)

/-- src/latitude.rs: `pub struct Latitude(f64)`. -/
structure Latitude where
  val : F64

/-- src/latitude.rs, `impl TryFrom<f64> for Latitude`: succeed exactly when
`item >= -90.0 && item <= 90.0`, otherwise return the range error. -/
def Latitude.try_from (item : F64) : Option Latitude :=
  if F64.le (.finite (-90)) item && F64.le item (.finite 90) then some ⟨item⟩
  else none

/-- A JSON value, the input shape of the serde deserializers. -/
inductive Json where
  | num : ℚ → Json
  | str : String → Json
  | arr : List Json → Json
  | obj : List (String × Json) → Json
  | bool : Bool → Json
  | null : Json

/-- Object field lookup. -/
def Json.getField : Json → String → Option Json
  | .obj fields, k => fields.lookup k
  | _, _ => none

/-- A JSON number, as an `f64` field. -/
def Json.asNum : Json → Option ℚ
  | .num q => some q
  | _ => none

/-- A JSON string field. -/
def Json.asStr : Json → Option String
  | .str s => some s
  | _ => none

/-- A JSON integer, as an `i32`/`i64` field or an epoch-seconds timestamp
(the timestamp adapter reads an integer count of seconds since the epoch). -/
def Json.asInt : Json → Option Int
  | .num q => if q.den = 1 then some q.num else none
  | _ => none

/-- A JSON array field. -/
def Json.asArr : Json → Option (List Json)
  | .arr xs => some xs
  | _ => none

/-- serde's treatment of an `Option<T>` struct field: a missing or null
field is `none`; a present field must parse. -/
def Json.optField (j : Json) (k : String) (f : Json → Option α) :
    Option (Option α) :=
  match j.getField k with
  | none => some none
  | some .null => some none
  | some v => (f v).map some

/-- src/latitude.rs, `impl Deserialize for Latitude`: maps the raw float
straight into the wrapper, with no range check. -/
def Latitude.deserialize (j : Json) : Option Latitude :=
  j.asNum.map (fun q => ⟨.finite q⟩)

/-- src/weather_data.rs: `Coord { lon: f64, lat: f64 }` — plain floats, no
validated longitude/latitude types. -/
structure Coord where
  lon : ℚ
  lat : ℚ

/-- Derived `Deserialize` for `Coord`. -/
def Coord.deserialize (j : Json) : Option Coord := do
  let lon ← (← j.getField "lon").asNum
  let lat ← (← j.getField "lat").asNum
  some ⟨lon, lat⟩

/-- src/weather_data.rs: `WeatherCond`. -/
structure WeatherCond where
  main : String
  description : String

/-- Derived `Deserialize` for `WeatherCond`. -/
def WeatherCond.deserialize (j : Json) : Option WeatherCond := do
  let m ← (← j.getField "main").asStr
  let d ← (← j.getField "description").asStr
  some ⟨m, d⟩

/-- src/weather_data.rs: `WeatherMain`. -/
structure WeatherMain where
  temp : Temperature
  feels_like : Temperature
  temp_min : Temperature
  temp_max : Temperature
  pressure : ℚ
  humidity : Int

/-- Derived `Deserialize` for `WeatherMain`. -/
def WeatherMain.deserialize (j : Json) : Option WeatherMain := do
  let temp ← (← j.getField "temp").asNum
  let feels ← (← j.getField "feels_like").asNum
  let tmin ← (← j.getField "temp_min").asNum
  let tmax ← (← j.getField "temp_max").asNum
  let p ← (← j.getField "pressure").asNum
  let h ← (← j.getField "humidity").asInt
  some ⟨temp, feels, tmin, tmax, p, h⟩

/-- src/weather_data.rs: `Wind { speed: f64, deg: Option<f64> }`. -/
structure Wind where
  speed : ℚ
  deg : Option ℚ

/-- Derived `Deserialize` for `Wind`: `deg` is optional. -/
def Wind.deserialize (j : Json) : Option Wind := do
  let s ← (← j.getField "speed").asNum
  let d ← j.optField "deg" Json.asNum
  some ⟨s, d⟩

/-- src/weather_data.rs: `Sys`. -/
structure Sys where
  country : Option String
  sunrise : Int
  sunset : Int

/-- Derived `Deserialize` for `Sys`: `country` is optional, the sun times go
through the epoch-seconds timestamp adapter. -/
def Sys.deserialize (j : Json) : Option Sys := do
  let c ← j.optField "country" Json.asStr
  let sr ← (← j.getField "sunrise").asInt
  let ss ← (← j.getField "sunset").asInt
  some ⟨c, sr, ss⟩

/-- src/weather_data.rs: `WeatherData`. -/
structure WeatherData where
  coord : Coord
  weather : List WeatherCond
  base : String
  main : WeatherMain
  visibility : Option ℚ
  wind : Wind
  dt : Int
  sys : Sys
  timezone : Int
  name : String

/-- First half of the derived `Deserialize` for `WeatherData` (split in two
definitions to keep the generated code small): the `coord`, `weather`,
`base`, `main` and `visibility` fields.  The `weather` list is parsed
elementwise with no non-emptiness check. -/
def WeatherData.deserializeFront (j : Json) :
    Option (Coord × List WeatherCond × String × WeatherMain × Option ℚ) := do
  let coord ← Coord.deserialize (← j.getField "coord")
  let weather ← (← (← j.getField "weather").asArr).mapM WeatherCond.deserialize
  let base ← (← j.getField "base").asStr
  let main ← WeatherMain.deserialize (← j.getField "main")
  let vis ← j.optField "visibility" Json.asNum
  some (coord, weather, base, main, vis)

/-- Second half of the derived `Deserialize` for `WeatherData`: the `wind`,
`dt`, `sys`, `timezone` and `name` fields. -/
def WeatherData.deserializeBack (j : Json) :
    Option (Wind × Int × Sys × Int × String) := do
  let wind ← Wind.deserialize (← j.getField "wind")
  let dt ← (← j.getField "dt").asInt
  let sys ← Sys.deserialize (← j.getField "sys")
  let tz ← (← j.getField "timezone").asInt
  let name ← (← j.getField "name").asStr
  some (wind, dt, sys, tz, name)

/-- Derived `Deserialize` for `WeatherData`: each field present and
well-typed, no further validation. -/
def WeatherData.deserialize (j : Json) : Option WeatherData := do
  let (coord, weather, base, main, vis) ← WeatherData.deserializeFront j
  let (wind, dt, sys, tz, name) ← WeatherData.deserializeBack j
  some ⟨coord, weather, base, main, vis, wind, dt, sys, tz, name⟩

/-- chrono `FixedOffset::east_opt(secs)`: a fixed offset of `secs` seconds
east of UTC, valid exactly when `-86400 < secs < 86400`.  `FixedOffset::east`
panics (modelled as `none`) outside that range. -/
def FixedOffset.eastOpt (secs : Int) : Option Int :=
  if -86400 < secs ∧ secs < 86400 then some secs else none

/-- The local calendar date (as a day number) of a UTC instant under a fixed
offset: chrono's `dt.with_timezone(&fo).date().naive_local()`, i.e. the
civil day containing the wall clock `dt + fo`. -/
def localDate (fo : Int) (dt : Int) : Int := (dt + fo).fdiv 86400

/-- The structured values `get_current_conditions` writes to its sink. -/
structure CurrentConditions where
  name : String
  country : Option String
  lat : ℚ
  lon : ℚ
  localDt : Int
  tempF : ℚ
  tempC : ℚ
  humidity : Int
  windDeg : ℚ
  windMph : ℚ
  conditions : String
  localSunrise : Int
  localSunset : Int

/-- src/weather_data.rs `WeatherData::get_current_conditions`, modelled as
the structured values written to the sink.  `FixedOffset::east` panics on an
out-of-range `timezone` and `self.weather[0]` panics on an empty condition
list; both panics are modelled as `none`.  Local instants are wall-clock
seconds `instant + offset`. -/
def WeatherData.get_current_conditions (w : WeatherData) :
    Option CurrentConditions := do
  let fo ← FixedOffset.eastOpt w.timezone
  let cond ← w.weather.head?
  some { name := w.name
         country := w.sys.country
         lat := w.coord.lat
         lon := w.coord.lon
         localDt := w.dt + fo
         tempF := w.main.temp.fahr
         tempC := w.main.temp.celc
         humidity := w.main.humidity
         windDeg := w.wind.deg.getD 0
         windMph := w.wind.speed * 3600 / (1609344 / 1000 : ℚ)
         conditions := cond.description
         localSunrise := w.sys.sunrise + fo
         localSunset := w.sys.sunset + fo }

/-- src/weather_data.rs: `ForecastMain`. -/
structure ForecastMain where
  temp : Temperature
  feels_like : ℚ
  temp_min : Temperature
  temp_max : Temperature
  pressure : Int
  sea_level : Int
  grnd_level : Int
  humidity : Int

/-- src/weather_data.rs: `ForecastEntry { dt, main }`, `dt` in epoch
seconds. -/
structure ForecastEntry where
  dt : Int
  main : ForecastMain

/-- src/weather_data.rs: `CityEntry`. -/
structure CityEntry where
  timezone : Int
  sunrise : Int
  sunset : Int

/-- src/weather_data.rs: `WeatherForecast { list, city }`. -/
structure WeatherForecast where
  list : List ForecastEntry
  city : CityEntry

/-- The `BTreeMap<NaiveDate, (Temperature, Temperature)>` model: an
association list sorted strictly ascending by date. -/
abbrev HLMap := List (Int × (Temperature × Temperature))

/-- Model of `BTreeMap::get`. -/
def mapGet : HLMap → Int → Option (Temperature × Temperature)
  | [], _ => none
  | (k, v) :: rest, d => if d = k then some v else mapGet rest d

/-- Model of `BTreeMap::insert`: keeps the list sorted, replacing the value
at an existing key. -/
def mapInsert : HLMap → Int → (Temperature × Temperature) → HLMap
  | [], k, v => [(k, v)]
  | (k', v') :: rest, k, v =>
    if k < k' then (k, v) :: (k', v') :: rest
    else if k = k' then (k, v) :: rest
    else (k', v') :: mapInsert rest k v

/-- The fold body of `WeatherForecast::get_high_low`: look up the entry's
local date; on a hit take the larger max and smaller min (ties keep the
stored value) and write back only when a bound changed, otherwise seed the
date with the entry's `(temp_max, temp_min)`. -/
def highLowStep (fo : Int) (hmap : HLMap) (entry : ForecastEntry) : HLMap :=
  let date := localDate fo entry.dt
  let high := entry.main.temp_max
  let low := entry.main.temp_min
  match mapGet hmap date with
  | some (h, l) =>
    let high' := if high > h then high else h
    let low' := if low < l then low else l
    if (high', low') ≠ (h, l) then mapInsert hmap date (high', low') else hmap
  | none => mapInsert hmap date (high, low)

/-- src/weather_data.rs `WeatherForecast::get_high_low`: fold the sample
list into a date-keyed map of (high, low) temperatures, using a fixed offset
built with `FixedOffset::east(city.timezone)` (whose panic is modelled as
`none`). -/
def WeatherForecast.get_high_low (w : WeatherForecast) : Option HLMap :=
  (FixedOffset.eastOpt w.city.timezone).map
    (fun fo => w.list.foldl (highLowStep fo) [])

/-- The per-date update the spec describes: a sample on an existing
(high, low) pair takes the strictly larger max and strictly smaller min,
ties keeping the existing value; a first sample seeds the pair with its
`(temp_max, temp_min)`. -/
def specDayStep : Option (Temperature × Temperature) → ForecastEntry →
    Option (Temperature × Temperature)
  | none, e => some (e.main.temp_max, e.main.temp_min)
  | some (h, l), e =>
    some (if e.main.temp_max > h then e.main.temp_max else h,
          if e.main.temp_min < l then e.main.temp_min else l)

/-- Spec-side description of the daily summary: the (high, low) pair for a
date is the seed-then-update fold over exactly the samples whose local
calendar date is that date, in list order. -/
def specDaySummary (fo : Int) (l : List ForecastEntry) (d : Int) :
    Option (Temperature × Temperature) :=
  (l.filter (fun e => localDate fo e.dt == d)).foldl specDayStep none

/-- Strictly ascending keys: the `BTreeMap` invariant and its iteration
order. -/
def SortedKeys (m : HLMap) : Prop := m.Pairwise (fun a b => a.1 < b.1)

/-- A forecast sample with the given timestamp, max and min temperatures
(remaining fields arbitrary). -/
def sampleEntry (dt : Int) (tmax tmin : ℚ) : ForecastEntry :=
  ⟨dt, ⟨0, 0, tmin, tmax, 0, 0, 0, 0⟩⟩

/-- Three samples on the same local date with max temps 10, 15, 12 and min
temps 5, 2, 8, offset zero. -/
def sameDayExample : WeatherForecast :=
  ⟨[sampleEntry 0 10 5, sampleEntry 3600 15 2, sampleEntry 7200 12 8],
   ⟨0, 0, 0⟩⟩

/-- A forecast with no samples. -/
def emptyExample : WeatherForecast := ⟨[], ⟨3600, 0, 0⟩⟩

/-- A forecast whose UTC offset is 72000 s = 20 h, outside ±18 h but inside
chrono's ±24 h bound. -/
def bigTzForecast : WeatherForecast := ⟨[sampleEntry 0 281 279], ⟨72000, 0, 0⟩⟩

/-- Two same-date samples in their given order. -/
def permExampleA : WeatherForecast :=
  ⟨[sampleEntry 0 10 5, sampleEntry 3600 15 2], ⟨0, 0, 0⟩⟩

/-- The same two same-date samples, swapped. -/
def permExampleB : WeatherForecast :=
  ⟨[sampleEntry 3600 15 2, sampleEntry 0 10 5], ⟨0, 0, 0⟩⟩

/-- A sample condition descriptor. -/
def baseCond : WeatherCond := ⟨"Clouds", "scattered clouds"⟩

/-- A snapshot with wind speed 10 m/s and a present wind direction. -/
def windExample : WeatherData :=
  { coord := ⟨0, 0⟩
    weather := [baseCond]
    base := "stations"
    main := ⟨280, 279, 278, 282, 1013, 50⟩
    visibility := none
    wind := ⟨10, some 200⟩
    dt := 1600000000
    sys := ⟨none, 1600000000, 1600040000⟩
    timezone := 0
    name := "Test" }

/-- The values `get_current_conditions` renders for `windExample`. -/
def windExampleOut : CurrentConditions :=
  { name := "Test"
    country := none
    lat := 0
    lon := 0
    localDt := 1600000000 + 0
    tempF := Temperature.fahr 280
    tempC := Temperature.celc 280
    humidity := 50
    windDeg := 200
    windMph := 10 * 3600 / (1609344 / 1000 : ℚ)
    conditions := "scattered clouds"
    localSunrise := 1600000000 + 0
    localSunset := 1600040000 + 0 }

/-- A snapshot whose payload had no `wind.deg` field. -/
def degExample : WeatherData :=
  { coord := ⟨0, 0⟩
    weather := [baseCond]
    base := "stations"
    main := ⟨280, 279, 278, 282, 1013, 50⟩
    visibility := none
    wind := ⟨10, none⟩
    dt := 1600000000
    sys := ⟨none, 1600000000, 1600040000⟩
    timezone := 0
    name := "Test" }

/-- A JSON condition descriptor. -/
def condJson (m d : String) : Json :=
  .obj [("main", .str m), ("description", .str d)]

/-- A structurally complete current-weather payload with the given
longitude and `weather` list. -/
def payloadWith (lon : ℚ) (weather : List Json) : Json :=
  .obj [("coord", .obj [("lon", .num lon), ("lat", .num 0)]),
        ("weather", .arr weather),
        ("base", .str "stations"),
        ("main", .obj [("temp", .num 280), ("feels_like", .num 279),
                       ("temp_min", .num 278), ("temp_max", .num 282),
                       ("pressure", .num 1013), ("humidity", .num 50)]),
        ("wind", .obj [("speed", .num 5), ("deg", .num 180)]),
        ("dt", .num 1600000000),
        ("sys", .obj [("country", .str "US"), ("sunrise", .num 1600000000),
                      ("sunset", .num 1600040000)]),
        ("timezone", .num 0),
        ("name", .str "Test")]

/-- A payload whose `weather` condition list is empty. -/
def emptyCondPayload : Json := payloadWith 0 []

/-- The snapshot the empty-condition payload parses to. -/
def emptyCondData : WeatherData :=
  ⟨⟨0, 0⟩, [], "stations", ⟨280, 279, 278, 282, 1013, 50⟩, none,
   ⟨5, some 180⟩, 1600000000, ⟨some "US", 1600000000, 1600040000⟩, 0, "Test"⟩

/-- A payload whose longitude is 1000 degrees. -/
def bigLonPayload : Json := payloadWith 1000 [condJson "Clouds" "scattered clouds"]

/-- The snapshot the longitude-1000 payload parses to. -/
def bigLonData : WeatherData :=
  ⟨⟨1000, 0⟩, [⟨"Clouds", "scattered clouds"⟩], "stations",
   ⟨280, 279, 278, 282, 1013, 50⟩, none, ⟨5, some 180⟩, 1600000000,
   ⟨some "US", 1600000000, 1600040000⟩, 0, "Test"⟩

theorem mapGet_mapInsert (m : HLMap) (k : Int) (v : Temperature × Temperature)
    (d : Int) :
    mapGet (mapInsert m k v) d = if d = k then some v else mapGet m d := by
  induction m with
  | nil => simp [mapInsert, mapGet]
  | cons q rest ih =>
    obtain ⟨k', v'⟩ := q
    rcases lt_trichotomy k k' with h1 | h1 | h1
    · rw [mapInsert, if_pos h1, mapGet]
    · subst h1
      rw [mapInsert, if_neg (lt_irrefl k), if_pos rfl, mapGet, mapGet]
      by_cases hd : d = k <;> simp [hd]
    · have hkk' : (k : Int) ≠ k' := h1.ne'
      rw [mapInsert, if_neg h1.not_lt, if_neg hkk', mapGet]
      by_cases hd' : d = k'
      · subst hd'
        rw [if_pos rfl, if_neg h1.ne, mapGet, if_pos rfl]
      · rw [if_neg hd', ih, mapGet, if_neg hd']

theorem mem_mapInsert (m : HLMap) (k : Int) (v : Temperature × Temperature)
    (p : Int × (Temperature × Temperature)) (hp : p ∈ mapInsert m k v) :
    p = (k, v) ∨ p ∈ m := by
  induction m with
  | nil => simpa [mapInsert] using hp
  | cons q rest ih =>
    obtain ⟨k', v'⟩ := q
    by_cases h1 : k < k'
    · rw [mapInsert, if_pos h1] at hp
      simpa [List.mem_cons] using hp
    · by_cases h2 : k = k'
      · rw [mapInsert, if_neg h1, if_pos h2, List.mem_cons] at hp
        rcases hp with h | h
        · exact Or.inl h
        · exact Or.inr (List.mem_cons_of_mem _ h)
      · rw [mapInsert, if_neg h1, if_neg h2, List.mem_cons] at hp
        rcases hp with h | h
        · exact Or.inr (by rw [h]; exact List.mem_cons_self _ _)
        · rcases ih h with h' | h'
          · exact Or.inl h'
          · exact Or.inr (List.mem_cons_of_mem _ h')

theorem sortedKeys_mapInsert (m : HLMap) (k : Int) (v : Temperature × Temperature)
    (hm : SortedKeys m) : SortedKeys (mapInsert m k v) := by
  induction m with
  | nil => simp [mapInsert, SortedKeys]
  | cons q rest ih =>
    obtain ⟨k', v'⟩ := q
    rw [SortedKeys, List.pairwise_cons] at hm
    obtain ⟨hall, hrest⟩ := hm
    rcases lt_trichotomy k k' with h1 | h1 | h1
    · rw [mapInsert, if_pos h1, SortedKeys, List.pairwise_cons]
      refine ⟨?_, List.pairwise_cons.mpr ⟨hall, hrest⟩⟩
      intro b hb
      rcases List.mem_cons.mp hb with h | h
      · exact h ▸ h1
      · exact h1.trans (hall b h)
    · subst h1
      rw [mapInsert, if_neg (lt_irrefl k), if_pos rfl, SortedKeys,
        List.pairwise_cons]
      exact ⟨hall, hrest⟩
    · rw [mapInsert, if_neg h1.not_lt, if_neg h1.ne', SortedKeys,
        List.pairwise_cons]
      refine ⟨?_, ih hrest⟩
      intro b hb
      rcases mem_mapInsert rest k v b hb with h | h
      · exact h ▸ h1
      · exact hall b h

theorem mapGet_eq_none (m : HLMap) (k : Int) (h : ∀ p ∈ m, k < p.1) :
    mapGet m k = none := by
  induction m with
  | nil => rfl
  | cons q rest ih =>
    have hne : k ≠ q.1 := (h q (List.mem_cons_self _ _)).ne
    obtain ⟨k', v'⟩ := q
    rw [mapGet, if_neg hne]
    exact ih fun p hp => h p (List.mem_cons_of_mem _ hp)

theorem sorted_mapGet_ext (m₁ m₂ : HLMap) (hs₁ : SortedKeys m₁)
    (hs₂ : SortedKeys m₂) (h : ∀ d, mapGet m₁ d = mapGet m₂ d) : m₁ = m₂ := by
  induction m₁ generalizing m₂ with
  | nil =>
    cases m₂ with
    | nil => rfl
    | cons q rest =>
      obtain ⟨k, v⟩ := q
      have hk := h k
      rw [mapGet, mapGet, if_pos rfl] at hk
      exact absurd hk (by simp)
  | cons q rest ih =>
    obtain ⟨k, v⟩ := q
    cases m₂ with
    | nil =>
      have hk := h k
      rw [mapGet, mapGet, if_pos rfl] at hk
      exact absurd hk (by simp)
    | cons q' rest' =>
      obtain ⟨k', v'⟩ := q'
      rw [SortedKeys, List.pairwise_cons] at hs₁ hs₂
      obtain ⟨hall₁, hrest₁⟩ := hs₁
      obtain ⟨hall₂, hrest₂⟩ := hs₂
      have hkk : k = k' := by
        rcases lt_trichotomy k k' with h1 | h1 | h1
        · exfalso
          have hk := h k
          rw [mapGet, if_pos rfl, mapGet, if_neg h1.ne] at hk
          rw [mapGet_eq_none rest' k fun p hp => h1.trans (hall₂ p hp)] at hk
          exact absurd hk (by simp)
        · exact h1
        · exfalso
          have hk := h k'
          rw [mapGet, if_neg h1.ne, mapGet, if_pos rfl] at hk
          rw [mapGet_eq_none rest k' fun p hp => h1.trans (hall₁ p hp)] at hk
          exact absurd hk.symm (by simp)
      subst hkk
      have hvv : v = v' := by
        have hk := h k
        rw [mapGet, if_pos rfl, mapGet, if_pos rfl] at hk
        exact Option.some.inj hk
      subst hvv
      have htail : ∀ d, mapGet rest d = mapGet rest' d := by
        intro d
        by_cases hd : d = k
        · subst hd
          rw [mapGet_eq_none rest d fun p hp => hall₁ p hp,
            mapGet_eq_none rest' d fun p hp => hall₂ p hp]
        · have hk := h d
          rwa [mapGet, if_neg hd, mapGet, if_neg hd] at hk
      rw [ih rest' hrest₁ hrest₂ htail]

theorem ite_gt_eq_max (x y : ℚ) : (if x > y then x else y) = max x y := by
  by_cases h : x > y
  · rw [if_pos h, max_eq_left h.le]
  · rw [if_neg h, max_eq_right (not_lt.mp h)]

theorem ite_lt_eq_min (x y : ℚ) : (if x < y then x else y) = min x y := by
  by_cases h : x < y
  · rw [if_pos h, min_eq_left h.le]
  · rw [if_neg h, min_eq_right (not_lt.mp h)]

theorem specDayStep_some (h l : Temperature) (e : ForecastEntry) :
    specDayStep (some (h, l)) e =
      some (max e.main.temp_max h, min e.main.temp_min l) := by
  rw [specDayStep, ite_gt_eq_max, ite_lt_eq_min]

theorem specDayStep_comm (acc : Option (Temperature × Temperature))
    (a b : ForecastEntry) :
    specDayStep (specDayStep acc a) b = specDayStep (specDayStep acc b) a := by
  rcases acc with _ | ⟨h, l⟩
  · show specDayStep (some (a.main.temp_max, a.main.temp_min)) b =
      specDayStep (some (b.main.temp_max, b.main.temp_min)) a
    rw [specDayStep_some, specDayStep_some, max_comm, min_comm]
  · rw [specDayStep_some, specDayStep_some, specDayStep_some, specDayStep_some,
      max_left_comm, min_left_comm]

theorem foldl_specDayStep_perm {l₁ l₂ : List ForecastEntry} (p : l₁.Perm l₂) :
    ∀ acc, l₁.foldl specDayStep acc = l₂.foldl specDayStep acc := by
  induction p with
  | nil => intro acc; rfl
  | cons x _ ih => intro acc; rw [List.foldl_cons, List.foldl_cons]; exact ih _
  | swap x y l =>
    intro acc
    rw [List.foldl_cons, List.foldl_cons, List.foldl_cons, List.foldl_cons,
      specDayStep_comm]
  | trans _ _ ih1 ih2 => intro acc; rw [ih1, ih2]

theorem specDayStep_isSome (acc : Option (Temperature × Temperature))
    (e : ForecastEntry) : (specDayStep acc e).isSome := by
  rcases acc with _ | ⟨h, l⟩ <;> simp [specDayStep]

theorem foldl_specDayStep_isSome (l : List ForecastEntry) :
    ∀ acc, acc.isSome → (l.foldl specDayStep acc).isSome := by
  induction l with
  | nil => exact fun acc h => h
  | cons e t ih =>
    intro acc _
    rw [List.foldl_cons]
    exact ih _ (specDayStep_isSome acc e)

theorem mapGet_highLowStep (fo : Int) (m : HLMap) (e : ForecastEntry)
    (d : Int) :
    mapGet (highLowStep fo m e) d =
      if localDate fo e.dt = d then specDayStep (mapGet m d) e
      else mapGet m d := by
  rcases hg : mapGet m (localDate fo e.dt) with _ | ⟨h, l⟩
  · simp only [highLowStep, hg]
    rw [mapGet_mapInsert]
    by_cases hd : localDate fo e.dt = d
    · subst hd
      rw [if_pos rfl, if_pos rfl, hg, specDayStep]
    · rw [if_neg (fun hh => hd hh.symm), if_neg hd]
  · simp only [highLowStep, hg]
    by_cases hch : ((if e.main.temp_max > h then e.main.temp_max else h,
        if e.main.temp_min < l then e.main.temp_min else l) : Temperature × Temperature) ≠ (h, l)
    · rw [if_pos hch, mapGet_mapInsert]
      by_cases hd : localDate fo e.dt = d
      · subst hd
        rw [if_pos rfl, if_pos rfl, hg, specDayStep]
      · rw [if_neg (fun hh => hd hh.symm), if_neg hd]
    · rw [if_neg hch]
      push_neg at hch
      by_cases hd : localDate fo e.dt = d
      · subst hd
        rw [if_pos rfl, hg, specDayStep, hch]
      · rw [if_neg hd]

theorem mapGet_foldl_highLowStep (fo : Int) (l : List ForecastEntry) :
    ∀ (m : HLMap) (d : Int),
      mapGet (l.foldl (highLowStep fo) m) d =
      (l.filter (fun e => localDate fo e.dt == d)).foldl specDayStep
        (mapGet m d) := by
  induction l with
  | nil => intro m d; rfl
  | cons e l ih =>
    intro m d
    rw [List.foldl_cons, ih]
    by_cases hd : localDate fo e.dt = d
    · rw [List.filter_cons_of_pos (by simpa using hd), List.foldl_cons,
        mapGet_highLowStep, if_pos hd]
    · rw [List.filter_cons_of_neg (by simpa using hd),
        mapGet_highLowStep, if_neg hd]

theorem sortedKeys_foldl_highLowStep (fo : Int) (l : List ForecastEntry) :
    ∀ m : HLMap, SortedKeys m → SortedKeys (l.foldl (highLowStep fo) m) := by
  induction l with
  | nil => exact fun m hm => hm
  | cons e l ih =>
    intro m hm
    rw [List.foldl_cons]
    refine ih _ ?_
    rcases hg : mapGet m (localDate fo e.dt) with _ | ⟨h, l'⟩
    · simp only [highLowStep, hg]
      exact sortedKeys_mapInsert _ _ _ hm
    · simp only [highLowStep, hg]
      by_cases hch : ((if e.main.temp_max > h then e.main.temp_max else h,
          if e.main.temp_min < l' then e.main.temp_min else l') :
          Temperature × Temperature) ≠ (h, l')
      · rw [if_pos hch]
        exact sortedKeys_mapInsert _ _ _ hm
      · rw [if_neg hch]
        exact hm

theorem isSome_specDaySummary (fo : Int) (l : List ForecastEntry) (d : Int) :
    (specDaySummary fo l d).isSome ↔ ∃ e ∈ l, localDate fo e.dt = d := by
  unfold specDaySummary
  constructor
  · intro hs
    by_contra hne
    push_neg at hne
    have hfil : l.filter (fun e => localDate fo e.dt == d) = [] := by
      rw [List.filter_eq_nil_iff]
      intro e he
      simpa using hne e he
    rw [hfil] at hs
    simp at hs
  · rintro ⟨e, he, hde⟩
    have hmem : e ∈ l.filter (fun e => localDate fo e.dt == d) := by
      rw [List.mem_filter]
      exact ⟨he, by simpa using hde⟩
    rcases hx : l.filter (fun e => localDate fo e.dt == d) with _ | ⟨x, t⟩
    · rw [hx] at hmem
      simp at hmem
    · rw [hx, List.foldl_cons]
      exact foldl_specDayStep_isSome t _ (specDayStep_isSome none x)

theorem try_from_finite (q : ℚ) :
    Latitude.try_from (.finite q) =
      if -90 ≤ q ∧ q ≤ 90 then some ⟨.finite q⟩ else none := by
  by_cases h : -90 ≤ q ∧ q ≤ 90
  · have hc : (F64.le (.finite (-90)) (.finite q) &&
        F64.le (.finite q) (.finite 90)) = true := by
      simp [F64.le, h.1, h.2]
    rw [Latitude.try_from, if_pos hc, if_pos h]
  · have hc : (F64.le (.finite (-90)) (.finite q) &&
        F64.le (.finite q) (.finite 90)) = false := by
      rcases not_and_or.mp h with h' | h'
      · simp [F64.le, h']
      · simp [F64.le, h']
    rw [Latitude.try_from, if_neg (by simp [hc]), if_neg h]

/-- Claim C3: `TryFrom<f64>` for `Latitude` succeeds exactly on finite
values in [−90, 90] and fails otherwise; NaN and both infinities are
rejected at construction. -/
theorem latitude_try_from_range :
    Latitude.try_from .nan = none ∧
    Latitude.try_from (.inf true) = none ∧
    Latitude.try_from (.inf false) = none ∧
    (∀ q : ℚ, Latitude.try_from (.finite q) =
      if -90 ≤ q ∧ q ≤ 90 then some ⟨.finite q⟩ else none) ∧
    (∀ v : F64, (Latitude.try_from v).isSome ↔
      ∃ q : ℚ, v = .finite q ∧ -90 ≤ q ∧ q ≤ 90) := by
  refine ⟨rfl, rfl, rfl, try_from_finite, fun v => ?_⟩
  cases v with
  | nan => simp [Latitude.try_from, F64.le]
  | inf b => cases b <;> simp [Latitude.try_from, F64.le]
  | finite q =>
    rw [try_from_finite]
    by_cases h : -90 ≤ q ∧ q ≤ 90
    · simp only [if_pos h, Option.isSome_some, true_iff]
      exact ⟨q, rfl, h⟩
    · simp only [if_neg h, Option.isSome_none, Bool.false_eq_true, false_iff]
      rintro ⟨q', hq', hq'2⟩
      cases hq'
      exact h hq'2

/-- Claim C5 (code defect): the latitude `Deserialize` impl maps the raw
float straight into the wrapper, so deserializing the number 200 yields a
`Latitude` holding 200 — a value `TryFrom` itself rejects. -/
theorem latitude_deserialize_unvalidated :
    Latitude.deserialize (Json.num 200) = some ⟨.finite 200⟩ ∧
    Latitude.try_from (.finite 200) = none ∧
    ¬((-90 : ℚ) ≤ 200 ∧ (200 : ℚ) ≤ 90) :=
  ⟨rfl, rfl, by norm_num⟩

/-- Claim C4 (code defect): longitude is a plain unvalidated float
(`Coord.lon`), so a payload with longitude 1000 — far outside ±180 —
deserializes successfully. -/
theorem longitude_1000_parses :
    WeatherData.deserialize bigLonPayload = some bigLonData ∧
    bigLonData.coord.lon = 1000 ∧ ¬((-180 : ℚ) ≤ 1000 ∧ (1000 : ℚ) ≤ 180) :=
  ⟨rfl, rfl, by norm_num⟩

/-- Claim C2 (code defect): a payload whose `weather` list is empty
deserializes successfully — the derived impl has no non-emptiness check —
and `get_current_conditions` then hits `self.weather[0]` on the empty list,
a panic (modelled `none`), not an `EmptyConditionList` error. -/
theorem empty_condition_list_parses :
    WeatherData.deserialize emptyCondPayload = some emptyCondData ∧
    emptyCondData.weather = [] ∧
    emptyCondData.get_current_conditions = none :=
  ⟨rfl, rfl, rfl⟩

/-- Claim C1: `get_high_low` produces one (high, low) entry per local
calendar day present among the samples (dates computed from each sample's
timestamp and the set's single timezone offset), keyed and sorted ascending
by date; the pair for each date is the seed-then-update fold
`specDaySummary`: the first sample of a date seeds it with that sample's
(temp_max, temp_min) and each later same-date sample takes the strictly
larger max and strictly smaller min, ties keeping the stored value.  Three
same-date samples with max temps {10, 15, 12} and min temps {5, 2, 8}
reduce to (15, 2). -/
theorem get_high_low_daily_summary (w : WeatherForecast) (m : HLMap)
    (hm : w.get_high_low = some m) :
    SortedKeys m ∧
    (∀ d, mapGet m d = specDaySummary w.city.timezone w.list d) ∧
    (∀ d, (mapGet m d).isSome ↔
      ∃ e ∈ w.list, localDate w.city.timezone e.dt = d) ∧
    sameDayExample.get_high_low = some [(0, (15, 2))] := by
  have hm' : m = w.list.foldl (highLowStep w.city.timezone) [] := by
    unfold WeatherForecast.get_high_low FixedOffset.eastOpt at hm
    by_cases hc : -86400 < w.city.timezone ∧ w.city.timezone < 86400
    · rw [if_pos hc] at hm
      simpa using hm.symm
    · rw [if_neg hc] at hm
      simp at hm
  subst hm'
  refine ⟨sortedKeys_foldl_highLowStep _ _ [] List.Pairwise.nil,
    fun d => ?_, fun d => ?_, by decide⟩
  · rw [mapGet_foldl_highLowStep]
    rfl
  · rw [mapGet_foldl_highLowStep]
    exact isSome_specDaySummary w.city.timezone w.list d

/-- Concrete instance of C1 at the three-sample example (date 0 holds the
pair (15, 2), which matches the spec-side summary). -/
theorem get_high_low_daily_summary_witness :
    mapGet [((0 : Int), ((15 : ℚ), (2 : ℚ)))] 0 =
      specDaySummary 0 sameDayExample.list 0 :=
  (get_high_low_daily_summary sameDayExample [(0, (15, 2))] (by decide)).2.1 0

/-- Claim C6: an empty sample list reduces to an empty mapping, with no
error (assuming the set's offset is one `FixedOffset::east` accepts at
all). -/
theorem get_high_low_empty (w : WeatherForecast) (h : w.list = [])
    (h1 : -86400 < w.city.timezone) (h2 : w.city.timezone < 86400) :
    w.get_high_low = some [] := by
  unfold WeatherForecast.get_high_low FixedOffset.eastOpt
  rw [if_pos ⟨h1, h2⟩, h]
  rfl

/-- Concrete instance of C6. -/
theorem get_high_low_empty_witness : emptyExample.get_high_low = some [] :=
  get_high_low_empty emptyExample rfl (by decide) (by decide)

/-- Claim C7: the reduction is keyed by local date and invariant under any
permutation of the sample list that keeps each position's local date (in
particular one that only reorders samples within the same local date). -/
theorem get_high_low_perm_invariant (w₁ w₂ : WeatherForecast)
    (hcity : w₁.city = w₂.city) (hperm : w₁.list.Perm w₂.list)
    (hdates : w₁.list.map (fun e => localDate w₁.city.timezone e.dt) =
      w₂.list.map (fun e => localDate w₁.city.timezone e.dt)) :
    w₁.get_high_low = w₂.get_high_low := by
  unfold WeatherForecast.get_high_low
  rw [← hcity]
  unfold FixedOffset.eastOpt
  by_cases hc : -86400 < w₁.city.timezone ∧ w₁.city.timezone < 86400
  · rw [if_pos hc]
    simp only [Option.map_some']
    congr 1
    apply sorted_mapGet_ext
    · exact sortedKeys_foldl_highLowStep _ _ [] List.Pairwise.nil
    · exact sortedKeys_foldl_highLowStep _ _ [] List.Pairwise.nil
    · intro d
      rw [mapGet_foldl_highLowStep, mapGet_foldl_highLowStep]
      exact foldl_specDayStep_perm (hperm.filter _) _
  · rw [if_neg hc]
    rfl

/-- Concrete instance of C7: two same-date samples swapped give the same
mapping. -/
theorem get_high_low_perm_invariant_witness :
    permExampleA.get_high_low = permExampleB.get_high_low :=
  get_high_low_perm_invariant permExampleA permExampleB rfl
    (List.Perm.swap _ _ _) (by decide)

/-- Claim C8 counterexample: the offset 72000 s = 20 h lies outside ±18 h
(64800 s), yet `get_high_low` accepts it and returns a summary — no
validation error is surfaced. -/
theorem offset_outside_18h_accepted :
    (64800 : Int) < bigTzForecast.city.timezone ∧
    bigTzForecast.get_high_low = some [(0, (281, 279))] :=
  ⟨by decide, by decide⟩

/-- Claim C8 (amended): a payload offset is accepted exactly when its
magnitude is under 24 hours — chrono's `FixedOffset::east` bound, not the
spec's ±18 h — and an offset outside that bound panics (modelled `none`)
in both `get_current_conditions` and `get_high_low` instead of surfacing a
validation error. -/
theorem offset_accepted_iff_lt_24h (w : WeatherForecast) (d : WeatherData)
    (hw : d.weather ≠ []) :
    (w.get_high_low.isSome ↔
      -86400 < w.city.timezone ∧ w.city.timezone < 86400) ∧
    (d.get_current_conditions.isSome ↔
      -86400 < d.timezone ∧ d.timezone < 86400) := by
  constructor
  · unfold WeatherForecast.get_high_low FixedOffset.eastOpt
    by_cases hc : -86400 < w.city.timezone ∧ w.city.timezone < 86400
    · rw [if_pos hc]
      simpa using hc
    · rw [if_neg hc]
      simpa using hc
  · unfold WeatherData.get_current_conditions FixedOffset.eastOpt
    by_cases hc : -86400 < d.timezone ∧ d.timezone < 86400
    · rw [if_pos hc]
      rcases hcond : d.weather with _ | ⟨c, cs⟩
      · exact absurd hcond hw
      · simp only [Option.some_bind, List.head?_cons, Option.isSome_some]
        simpa using hc
    · rw [if_neg hc]
      simpa using hc

/-- Concrete instance of C8 (amended) at offset 72000 s and a snapshot with
a non-empty condition list. -/
theorem offset_accepted_iff_lt_24h_witness :
    (bigTzForecast.get_high_low.isSome ↔
      -86400 < bigTzForecast.city.timezone ∧
        bigTzForecast.city.timezone < 86400) ∧
    (windExample.get_current_conditions.isSome ↔
      -86400 < windExample.timezone ∧ windExample.timezone < 86400) :=
  offset_accepted_iff_lt_24h bigTzForecast windExample (List.cons_ne_nil _ _)

/-- Claim C9: the rendered wind speed is the stored speed multiplied by
exactly 3600/1609.344, and at 10 m/s the result is within 0.005 of
22.37 mph. -/
theorem wind_mph_exact_factor (w : WeatherData) (c : CurrentConditions)
    (h : w.get_current_conditions = some c) :
    c.windMph = w.wind.speed * (3600 / (1609344 / 1000 : ℚ)) ∧
    |(10 : ℚ) * (3600 / (1609344 / 1000 : ℚ)) - 2237 / 100| < 1 / 200 := by
  constructor
  · unfold WeatherData.get_current_conditions at h
    rcases hfo : FixedOffset.eastOpt w.timezone with _ | fo
    · rw [hfo] at h
      simp at h
    · rcases hcond : w.weather.head? with _ | cond
      · rw [hfo, hcond] at h
        simp at h
      · rw [hfo, hcond] at h
        simp at h
        subst h
        show w.wind.speed * 3600 / (1609344 / 1000 : ℚ) =
          w.wind.speed * (3600 / (1609344 / 1000 : ℚ))
        rw [mul_div_assoc]
  · rw [abs_sub_lt_iff]
    constructor <;> norm_num

/-- Concrete instance of C9 at wind speed 10 m/s. -/
theorem wind_mph_exact_factor_witness :
    windExampleOut.windMph =
      windExample.wind.speed * (3600 / (1609344 / 1000 : ℚ)) :=
  (wind_mph_exact_factor windExample windExampleOut rfl).1

/-- Claim C10: with `wind.deg` absent, `get_current_conditions` still
succeeds (given an acceptable offset and a non-empty condition list) and
renders the wind direction as 0.0 via `unwrap_or(0.0)`. -/
theorem wind_deg_missing_defaults (w : WeatherData) (hdeg : w.wind.deg = none)
    (hw : w.weather ≠ []) (h1 : -86400 < w.timezone) (h2 : w.timezone < 86400) :
    w.get_current_conditions.isSome ∧
    ∀ c, w.get_current_conditions = some c → c.windDeg = 0 := by
  unfold WeatherData.get_current_conditions FixedOffset.eastOpt
  rw [if_pos ⟨h1, h2⟩]
  rcases hcond : w.weather with _ | ⟨cond, rest⟩
  · exact absurd hcond hw
  · refine ⟨rfl, fun c hc => ?_⟩
    simp only [List.head?_cons] at hc
    simp at hc
    subst hc
    show w.wind.deg.getD 0 = 0
    rw [hdeg]
    rfl

/-- Concrete instance of C10 at a snapshot with no wind direction. -/
theorem wind_deg_missing_defaults_witness :
    degExample.get_current_conditions.isSome :=
  (wind_deg_missing_defaults degExample rfl (List.cons_ne_nil _ _)
    (by decide) (by decide)).1
